import Mathlib

/-!
Verification of the Piano-LED-Visualizer practice/timing engine
(`lib/learnmidi.py`) and flying-notes renderer (`lib/flying_notes_renderer.py`).

The Python source is shallowly embedded: MIDI messages and input events become
plain structures, the mutable fields of `LearnMIDI` become an explicit
`EngineState` record that is threaded through pure step functions, and the
long-running `learn_midi` loop becomes a fold over the bounded slice of the
song.  Wall-clock-dependent tests (`time.time() >= self.next_note_time`) and
asynchronous flag writes from other threads (`restart_loop`, stopping the
engine) are supplied as explicit boolean inputs per step, which makes every
admissible interleaving expressible.  Sends to the playback port and to
WebSocket clients are recorded as traces.  Exact rational arithmetic (`ℚ`)
stands in for Python floats.
-/

/-- Message kind of a mido message as discriminated by the source
(`msg.is_meta`, `msg.type == 'note_on' / 'note_off'`). -/
inductive MsgType where
  | note_on
  | note_off
  | meta
  | other
  deriving Repr, DecidableEq

/-- A (merged-track) mido message as used by `learn_midi`: delta time, note,
velocity and the channel that `load_midi` assigned to mark the hand of
origin.  `time` is the delta in ticks for `song_tracks` messages; in the
`load_midi` accumulation loop (`for msg in mid`) the same field carries
seconds, which is how mido exposes it there. -/
structure Msg where
  typ : MsgType
  note : Nat
  velocity : Nat
  channel : Nat
  time : ℚ
  deriving Repr, DecidableEq

/-- Kind of an incoming message popped from `midiports.midi_queue`. -/
inductive EvKind where
  | noteOn
  | noteOff
  | other
  deriving Repr, DecidableEq

/-- An input event from the MIDI input queue.  The source re-parses `note` and
`velocity` out of `str(msg_in)`; a `note_off` is given velocity 0
(`if "note_off" in str(msg_in): velocity = 0`). -/
structure InEvent where
  kind : EvKind
  note : Nat
  velocity : Nat
  deriving Repr, DecidableEq

/-- Velocity the gate-wait loop attributes to an input event: 0 for a
`note_off`, the carried velocity otherwise. -/
def effVelocity (e : InEvent) : Nat :=
  if e.kind = EvKind.noteOff then 0 else e.velocity

/-- Configuration fields of `LearnMIDI` read (but never written) by the
per-iteration loop.  `notePos` abstracts `get_note_position`.
Modelled from the spec: `get_note_position` lives in `lib/functions.py`, which
is not part of the provided sources; the spec only requires that each MIDI
note map to an LED strip position, so it is kept as an opaque-but-total
function parameter. -/
structure Config where
  practice : Nat
  hands : Nat
  mute_hand : Nat
  show_wrong_notes : Nat
  show_future_notes : Nat
  number_of_mistakes : Nat
  is_led_activeL : Nat
  is_led_activeR : Nat
  set_tempo : ℚ
  song_tempo : ℚ
  ticks_per_beat : ℚ
  start_point : ℚ
  end_point : ℚ
  is_loop_active : Bool
  notes_time : List ℚ
  notePos : Nat → Nat

/-- The mutable state of `LearnMIDI` that the per-iteration loop touches,
together with the loop locals that survive a message step
(`hand_hint_notesL/R` live across iterations of the outer `while`), and two
traces: `sent` records every `self.midiports.playport.send(...)` call and
`restart_requests` counts calls of `restart_loop`. -/
structure EngineState where
  current_idx : Nat
  absolute_idx : Nat
  notes_to_press : List Nat
  pending_software_notes : List Msg
  mistakes_count : Nat
  awaiting_restart_loop : Bool
  is_started_midi : Bool
  hand_hint_notesL : List Nat
  hand_hint_notesR : List Nat
  socket_send : List ℚ
  sent : List Msg
  restart_requests : Nat
  next_note_time : Option Unit
  deriving Repr, DecidableEq

/-- `LearnMIDI.restart_loop`: sets `awaiting_restart_loop`.  The
`restart_requests` counter instruments how many times it was called. -/
def restart_loop (s : EngineState) : EngineState :=
  { s with awaiting_restart_loop := true, restart_requests := s.restart_requests + 1 }

/-- Number of wrong-batch events that `handle_wrong_notes` treats as a wrong
key press (velocity > 0, note-offs count as velocity 0). -/
def countQualifying (evs : List InEvent) : Nat :=
  (evs.filter (fun e => 0 < effVelocity e)).length

/-- `LearnMIDI.handle_wrong_notes` restricted to its state effect: disabled
unless `show_wrong_notes == 1`; otherwise `mistakes_count` grows by one per
wrong note-on with velocity > 0 (the LED writes are not modelled), and if the
count then exceeds a non-zero `number_of_mistakes` it is reset to 0 and
`restart_loop` is invoked. -/
def handle_wrong_notes (cfg : Config) (wrong : List InEvent) (s : EngineState) :
    EngineState :=
  if cfg.show_wrong_notes ≠ 1 then s
  else
    let s1 : EngineState := { s with mistakes_count := s.mistakes_count + countQualifying wrong }
    if cfg.number_of_mistakes < s1.mistakes_count ∧ 0 < cfg.number_of_mistakes then
      restart_loop { s1 with mistakes_count := 0 }
    else s1

/-- Boolean form of `set(notes_to_press).issubset(notes_pressed)`. -/
def subsetB (tp pressed : List Nat) : Bool :=
  tp.all (fun n => pressed.contains n)

/-- Local state of one gate wait: the `notes_pressed` and `wrong_notes` loop
locals plus the engine state. -/
structure GateSt where
  pressed : List Nat
  wrong : List InEvent
  eng : EngineState
  deriving Repr, DecidableEq

/-- One pass of the queue-drain body (`learn_midi` lines 501-528): events that
are neither note-on nor note-off are skipped; a note outside `notes_to_press`
joins the wrong batch and, when its velocity is positive, clears
`pending_software_notes`; an expected note-on is appended to `notes_pressed`
unless already present; an expected note-off removes it (`list.remove`, first
occurrence, ignoring absence). -/
def drainStep (tp : List Nat) (g : GateSt) (e : InEvent) : GateSt :=
  if e.kind = EvKind.other then g
  else
    let velocity := effVelocity e
    if e.note ∉ tp then
      let g1 : GateSt := { g with wrong := g.wrong ++ [e] }
      if 0 < velocity then
        { g1 with eng.pending_software_notes := [] }
      else g1
    else
      if 0 < velocity then
        if e.note ∈ g.pressed then g
        else { g with pressed := g.pressed ++ [e.note] }
      else
        { g with pressed := g.pressed.erase e.note }

/-- One round of the gate-wait `while` body: the input queue's current
contents, plus booleans recording whether another thread called
`restart_loop` or stopped the engine since the previous check of the loop
condition. -/
structure Round where
  restartReq : Bool
  stopReq : Bool
  events : List InEvent
  deriving Repr, DecidableEq

/-- Apply one gate-wait round: observe asynchronous flag writes, drain the
queued events, then run `handle_wrong_notes` on the accumulated wrong batch
and clear it (`wrong_notes.clear()`).  The `predict_future_notes` call only
rewrites LED colors and is not modelled. -/
def procRound (cfg : Config) (tp : List Nat) (r : Round) (g : GateSt) : GateSt :=
  let g1 : GateSt := { g with eng := { g.eng with
      awaiting_restart_loop := g.eng.awaiting_restart_loop || r.restartReq,
      is_started_midi := g.eng.is_started_midi && !r.stopReq } }
  let g2 := r.events.foldl (drainStep tp) g1
  { g2 with wrong := [], eng := handle_wrong_notes cfg g2.wrong g2.eng }

/-- How the gate-wait loop was left: `exited` through its `while` condition
(satisfied, or engine stopped), `interrupted` by the
`if self.awaiting_restart_loop: break`, or still `waiting` because the
supplied rounds ran out before either happened. -/
inductive GateOutcome where
  | exited
  | interrupted
  | waiting
  deriving Repr, DecidableEq

/-- The gate-wait loop
(`while not set(notes_to_press).issubset(notes_pressed) and self.is_started_midi`),
driven by the finite list of rounds the environment supplies. -/
def gateWait (cfg : Config) (tp : List Nat) :
    List Round → GateSt → GateOutcome × GateSt
  | [], g =>
    if subsetB tp g.pressed || !g.eng.is_started_midi then (GateOutcome.exited, g)
    else if g.eng.awaiting_restart_loop then (GateOutcome.interrupted, g)
    else (GateOutcome.waiting, g)
  | r :: rs, g =>
    if subsetB tp g.pressed || !g.eng.is_started_midi then (GateOutcome.exited, g)
    else if g.eng.awaiting_restart_loop then (GateOutcome.interrupted, g)
    else gateWait cfg tp rs (procRound cfg tp r g)

/-- `mido.tick2second(tick, ticks_per_beat, tempo)` over exact rationals.
mido computes `tick * (tempo * 1e-6 / ticks_per_beat)`; mido is an external
dependency, embedded here by its documented formula. -/
def tick2second (tick ticks_per_beat tempo : ℚ) : ℚ :=
  tick * (tempo * (1 / 1000000) / ticks_per_beat)

/-- The inter-event delay of `learn_midi`:
`mido.tick2second(msg.time, self.ticks_per_beat, self.song_tempo * 100 / self.set_tempo)`. -/
def tDelayOf (cfg : Config) (msg : Msg) : ℚ :=
  tick2second msg.time cfg.ticks_per_beat (cfg.song_tempo * 100 / cfg.set_tempo)

/-- Whether the message enters the gate-wait branch of `learn_midi`
(`tDelay > 0 and (note_on or note_off) and notes_to_press and practice == 0`). -/
def gateCond (cfg : Config) (msg : Msg) (s : EngineState) : Prop :=
  0 < tDelayOf cfg msg ∧ (msg.typ = MsgType.note_on ∨ msg.typ = MsgType.note_off) ∧
    s.notes_to_press ≠ [] ∧ cfg.practice = 0

instance (cfg : Config) (msg : Msg) (s : EngineState) : Decidable (gateCond cfg msg s) := by
  unfold gateCond; infer_instance

/-- Code after the gate-wait loop (`learn_midi` lines 537-548): reset both
hand hint buffers, flush `pending_software_notes` to the playback port when
the gate was satisfied and the buffer is non-empty, and clear
`notes_to_press`. -/
def gateEpilogue (g : GateSt) : EngineState :=
  let s1 : EngineState := { g.eng with hand_hint_notesL := [], hand_hint_notesR := [] }
  let s2 : EngineState :=
    if subsetB s1.notes_to_press g.pressed = true ∧ s1.pending_software_notes ≠ [] then
      { s1 with sent := s1.sent ++ s1.pending_software_notes, pending_software_notes := [] }
    else s1
  { s2 with notes_to_press := [] }

/-- The condition under which a message is routed as a software
(accompaniment) note (`learn_midi` lines 597-603). -/
def softwareCond (cfg : Config) (msg : Msg) : Prop :=
  (cfg.hands = 1 ∧ cfg.mute_hand ≠ 2 ∧ msg.channel = 2) ∨
    (cfg.hands = 2 ∧ cfg.mute_hand ≠ 1 ∧ msg.channel = 1) ∨
    cfg.practice = 2

instance (cfg : Config) (msg : Msg) : Decidable (softwareCond cfg msg) := by
  unfold softwareCond; infer_instance

/-- The LED light-up part of a non-meta message (`learn_midi` lines 557-590):
maintain the per-hand hint buffers of lit positions (append the note's
position on a note-on with positive brightness, remove it on a note-off,
only for a hand whose "LED active" preference is off).  Pixel writes are not
modelled. -/
def hintPhase (cfg : Config) (msg : Msg) (s : EngineState) : EngineState :=
  if msg.typ = MsgType.note_on ∨ msg.typ = MsgType.note_off then
    let pos := cfg.notePos msg.note
    if msg.channel = 1 ∧ cfg.is_led_activeR = 0 then
      if 0 < msg.velocity then { s with hand_hint_notesR := s.hand_hint_notesR ++ [pos] }
      else { s with hand_hint_notesR := s.hand_hint_notesR.erase pos }
    else if msg.channel = 2 ∧ cfg.is_led_activeL = 0 then
      if 0 < msg.velocity then { s with hand_hint_notesL := s.hand_hint_notesL ++ [pos] }
      else { s with hand_hint_notesL := s.hand_hint_notesL.erase pos }
    else s
  else s

/-- "Save notes to press" (`learn_midi` lines 592-594): a note-on with
positive velocity whose channel matches the hand filter (or the filter is
Both) is appended to `notes_to_press`. -/
def toPressPhase (cfg : Config) (msg : Msg) (s : EngineState) : EngineState :=
  if msg.typ = MsgType.note_on ∧ 0 < msg.velocity ∧
      (msg.channel = cfg.hands ∨ cfg.hands = 0) then
    { s with notes_to_press := s.notes_to_press ++ [msg.note] }
  else s

/-- Software-note routing (`learn_midi` lines 596-614): in Listen mode the
note is sent immediately; otherwise it is buffered in
`pending_software_notes` while `notes_to_press` is non-empty and sent
immediately when it is empty. -/
def softwarePhase (cfg : Config) (msg : Msg) (s : EngineState) : EngineState :=
  if softwareCond cfg msg then
    if cfg.practice = 2 then { s with sent := s.sent ++ [msg] }
    else if s.notes_to_press ≠ [] then
      { s with pending_software_notes := s.pending_software_notes ++ [msg] }
    else { s with sent := s.sent ++ [msg] }
  else s

/-- The light-up / bookkeeping part of a non-meta message (`learn_midi`
lines 557-614), in source order: hint buffers, notes-to-press, software
routing. -/
def lightAndRoute (cfg : Config) (msg : Msg) (s : EngineState) : EngineState :=
  softwarePhase cfg msg (toPressPhase cfg msg (hintPhase cfg msg s))

/-- The time-based escape valve (`learn_midi` lines 620-626): when software
notes are pending, no user notes are required, a next-note deadline was
recorded, and the wall clock has reached it (supplied as `escapeNow`), flush
and clear the pending notes. -/
def escapeValve (escapeNow : Bool) (s : EngineState) : EngineState :=
  if s.pending_software_notes ≠ [] ∧ s.notes_to_press = [] ∧
      s.next_note_time.isSome ∧ escapeNow = true then
    { s with sent := s.sent ++ s.pending_software_notes, pending_software_notes := [],
             next_note_time := none }
  else s

/-- Environment inputs of one message step: asynchronous flag writes observed
before the iteration's checks, the queue contents for each gate-wait drain
round, and the wall-clock test of the escape valve. -/
structure StepInput where
  restartReq : Bool
  stopReq : Bool
  rounds : List Round
  escapeNow : Bool
  deriving Repr, DecidableEq

/-- How one message step left the `for` loop. -/
inductive StepExit where
  | next
  | stopped
  | restarting
  | waitingGate
  deriving Repr, DecidableEq

/-- Asynchronous flag writes from other threads (a `restart_loop` call, the
engine being stopped), observed before this iteration's checks. -/
def applyAsync (inp : StepInput) (s0 : EngineState) : EngineState :=
  { s0 with
      awaiting_restart_loop := s0.awaiting_restart_loop || inp.restartReq,
      is_started_midi := s0.is_started_midi && !inp.stopReq }

/-- The "Check notes to press" section of a `for` iteration (`learn_midi`
lines 480-548): for a non-meta message, record the sheet-music sync time,
advance `current_idx`, and, when the gate condition holds, record the
next-note deadline and run the gate wait followed by its epilogue.  `none`
means the gate wait ran out of supplied input rounds while unsatisfied (the
real loop would still be waiting).  The `socket_send` append is guarded by a
try/except in the source, hence the `Option.toList`. -/
def checkPhase (cfg : Config) (msg : Msg) (rounds : List Round) (s : EngineState) :
    Option EngineState :=
  if msg.typ ≠ MsgType.meta then
    let s1 : EngineState := { s with
        socket_send := s.socket_send ++ (cfg.notes_time.get? s.current_idx).toList,
        current_idx := s.current_idx + 1 }
    if gateCond cfg msg s1 then
      let s2 : EngineState := { s1 with next_note_time := some () }
      match gateWait cfg s2.notes_to_press rounds ⟨[], [], s2⟩ with
      | (GateOutcome.waiting, _) => none
      | (_, g) => some (gateEpilogue g)
    else some s1
  else some s

/-- One iteration of the `for msg in self.song_tracks[start_idx:end_idx]`
body: the stop check, the check-notes-to-press section, the light-up and
software-note routing section, `absolute_idx` advance, the escape valve, and
the end-of-iteration restart check that clears `awaiting_restart_loop` and
breaks out of the slice. -/
def step (cfg : Config) (msg : Msg) (inp : StepInput) (s0 : EngineState) :
    StepExit × EngineState :=
  let s := applyAsync inp s0
  if s.is_started_midi = false then (StepExit.stopped, s)
  else
    match checkPhase cfg msg inp.rounds s with
    | none => (StepExit.waitingGate, s)
    | some s3 =>
      let s4 := if msg.typ ≠ MsgType.meta then lightAndRoute cfg msg s3 else s3
      let s5 : EngineState := { s4 with absolute_idx := s4.absolute_idx + 1 }
      let s6 := escapeValve inp.escapeNow s5
      if s6.awaiting_restart_loop = true then
        (StepExit.restarting, { s6 with awaiting_restart_loop := false })
      else (StepExit.next, s6)

/-- How a run over the bounded slice ended. -/
inductive RunExit where
  | completed
  | stopped
  | restarting
  | waitingGate
  deriving Repr, DecidableEq

/-- Run the `for` loop over the slice, one `(message, environment input)` pair
per iteration. -/
def runSlice (cfg : Config) : List (Msg × StepInput) → EngineState → RunExit × EngineState
  | [], s => (RunExit.completed, s)
  | (m, inp) :: rest, s =>
    match step cfg m inp s with
    | (StepExit.next, s1) => runSlice cfg rest s1
    | (StepExit.stopped, s1) => (RunExit.stopped, s1)
    | (StepExit.restarting, s1) => (RunExit.restarting, s1)
    | (StepExit.waitingGate, s1) => (RunExit.waitingGate, s1)

/-- `int(self.start_point * len(self.song_tracks) / 100)`; Python `int()`
truncates toward zero and `start_point` is clamped non-negative, so this is
the floor. -/
def start_idx (cfg : Config) (trackLen : Nat) : Nat :=
  (Rat.floor (cfg.start_point * trackLen / 100)).toNat

/-- The head of one `while keep_looping` iteration (`learn_midi`
lines 457-468): reset `notes_to_press` and both index cursors.  Nothing else —
in particular `pending_software_notes` and the hint buffers are carried over
from the previous iteration. -/
def iterInit (cfg : Config) (trackLen : Nat) (s : EngineState) : EngineState :=
  { s with notes_to_press := [],
           current_idx := start_idx cfg trackLen,
           absolute_idx := start_idx cfg trackLen }

/-- `load_midi` lines 340-345: accumulate `time_passed` over the non-meta
messages of the song (here `msg.time` is the per-message delta in seconds, as
mido yields it when iterating a `MidiFile`) and append each running total to
`notes_time`.  Meta messages contribute nothing and produce no entry. -/
def notes_time_of : List Msg → ℚ → List ℚ
  | [], _ => []
  | m :: ms, time_passed =>
    if m.typ = MsgType.meta then notes_time_of ms time_passed
    else
      let t := time_passed + m.time
      t :: notes_time_of ms t

/-- An RGB color triple. -/
structure RGB where
  r : Nat
  g : Nat
  b : Nat
  deriving Repr, DecidableEq

/-- The 2x2x2 `learn_colors` table of `LearnMIDI` (hand x white/black x
current/upcoming).  The Python dict lookup with a `KeyError` fallback is total
here because the table is a record. -/
structure LearnColors where
  left_white_current : RGB
  left_white_upcoming : RGB
  left_black_current : RGB
  left_black_upcoming : RGB
  right_white_current : RGB
  right_white_upcoming : RGB
  right_black_current : RGB
  right_black_upcoming : RGB
  deriving Repr, DecidableEq

/-- `LearnMIDI.get_note_type`: black keys are the pitch classes
C#, D#, F#, G#, A#. -/
def get_note_type_black (note : Nat) : Bool :=
  note % 12 = 1 || note % 12 = 3 || note % 12 = 6 || note % 12 = 8 || note % 12 = 10

/-- `LearnMIDI.get_learn_color` as a total table lookup. -/
def get_learn_color (lc : LearnColors) (handLeft : Bool) (isBlack : Bool)
    (is_upcoming : Bool) : RGB :=
  match handLeft, isBlack, is_upcoming with
  | true, false, false => lc.left_white_current
  | true, false, true => lc.left_white_upcoming
  | true, true, false => lc.left_black_current
  | true, true, true => lc.left_black_upcoming
  | false, false, false => lc.right_white_current
  | false, false, true => lc.right_white_upcoming
  | false, true, false => lc.right_black_current
  | false, true, true => lc.right_black_upcoming

/-- One entry of the renderer's static 88-key piano layout. -/
structure PianoKey where
  midi_note : Nat
  x_position : Int
  is_black : Bool
  width : Nat
  deriving Repr, DecidableEq

/-- Horizontal offset of a black key relative to the gap between white keys
(`FlyingNotesRenderer._generate_piano_layout`). -/
def blackKeyOffset (note_in_octave : Nat) : Int :=
  if note_in_octave = 1 then -6
  else if note_in_octave = 3 then 6
  else if note_in_octave = 6 then -8
  else if note_in_octave = 8 then 0
  else 8

/-- The layout loop of `_generate_piano_layout`, threading the running
`white_key_count` (white keys are 20 wide, black keys 12, and
`white_key_width // 2 = 10`). -/
def pianoLayoutAux : List Nat → Int → List PianoKey
  | [], _ => []
  | n :: ns, white_key_count =>
    let nio := n % 12
    if get_note_type_black n then
      { midi_note := n,
        x_position := (white_key_count - 1) * 20 + 10 + blackKeyOffset nio,
        is_black := true, width := 12 } :: pianoLayoutAux ns white_key_count
    else
      { midi_note := n, x_position := white_key_count * 20,
        is_black := false, width := 20 } :: pianoLayoutAux ns (white_key_count + 1)

/-- `FlyingNotesRenderer.piano_keys`: the 88 keys A0 (MIDI 21) through
C8 (MIDI 108). -/
def piano_keys : List PianoKey :=
  pianoLayoutAux (List.range' 21 88) 0

/-- One buffered note of the renderer (`note_data` in
`_load_notes_from_midi`); `hand_left` records `channel != 1`. -/
structure NoteData where
  midi_note : Nat
  channel : Nat
  velocity : Nat
  start_time : ℚ
  duration : ℚ
  hand_left : Bool
  note_black : Bool
  deriving Repr, DecidableEq

/-- The renderer's settings dictionary (wall-clock-free fields). -/
structure RSettings where
  enabled : Bool
  speed : ℚ
  note_height : ℚ
  keyboard_height : ℚ
  show_measures : Bool
  animation_smoothness : Nat
  canvas_height : ℚ
  fall_distance : ℚ
  deriving Repr, DecidableEq

/-- One rendered flying note of a frame. -/
structure FlyingNote where
  midi_note : Nat
  x_position : Int
  y_position : ℚ
  width : Nat
  height : ℚ
  color : RGB
  hand_left : Bool
  velocity : Nat
  is_black_key : Bool
  deriving Repr, DecidableEq

/-- Renders one buffered note for the current frame, or `none` when it is
outside the visibility window `[current_time, current_time + lookahead]`
(`lookahead = fall_distance / 100`) or its MIDI note has no entry in the
88-key layout (`_generate_frame_data` lines 186-217). -/
def renderNote (lc : LearnColors) (st : RSettings) (current_time : ℚ)
    (note : NoteData) : Option FlyingNote :=
  let lookahead_time := st.fall_distance / 100
  if current_time ≤ note.start_time ∧ note.start_time ≤ current_time + lookahead_time then
    let time_until_hit := note.start_time - current_time
    let y_position := st.canvas_height - st.keyboard_height -
      time_until_hit / lookahead_time * st.fall_distance
    match piano_keys.find? (fun k => k.midi_note == note.midi_note) with
    | some key_info =>
      some { midi_note := note.midi_note, x_position := key_info.x_position,
             y_position := y_position, width := key_info.width,
             height := st.note_height,
             color := get_learn_color lc note.hand_left note.note_black true,
             hand_left := note.hand_left, velocity := note.velocity,
             is_black_key := key_info.is_black }
    | none => none
  else none

/-- The `notes` list of one frame of `_generate_frame_data`. -/
def generate_frame_notes (lc : LearnColors) (st : RSettings) (current_time : ℚ)
    (buffer : List NoteData) : List FlyingNote :=
  buffer.filterMap (renderNote lc st current_time)

/-- Broadcast payload kinds pushed to WebSocket clients. -/
inductive BMsg where
  | stopMsg
  | frameMsg
  deriving Repr, DecidableEq

/-- Mutable state of `FlyingNotesRenderer` (wall-clock and thread handles are
not modelled; `current_time` is the session-relative time). -/
structure RendererState where
  websocket_clients : List Nat
  is_active : Bool
  notes_buffer : List NoteData
  current_time : ℚ
  settings : RSettings
  deriving Repr, DecidableEq

/-- `_broadcast_to_clients`: one send per connected client, nothing when no
client is connected.  Sends are assumed to succeed (a failed send is logged
and the client dropped; delivery failure is outside this model). -/
def broadcast_to_clients (s : RendererState) (m : BMsg) : List BMsg :=
  s.websocket_clients.map (fun _ => m)

/-- `FlyingNotesRenderer.stop_animation`: unconditionally clear `is_active`,
join the animation thread (not modelled), clear the notes buffer and send a
`stop` payload to every client.  Returns the new state and the list of sends
this call performed. -/
def stop_animation (s : RendererState) : RendererState × List BMsg :=
  ({ s with is_active := false, notes_buffer := [] },
    broadcast_to_clients s BMsg.stopMsg)

/-- `FlyingNotesRenderer.sync_with_learn_midi`: overwrite `current_time` with
the supplied position, but only while the renderer is active. -/
def sync_with_learn_midi (s : RendererState) (current_position : ℚ) : RendererState :=
  if s.is_active then { s with current_time := current_position } else s

/-- The note-loading loop of `_load_notes_from_midi`: walk the song's merged
track accumulating delta ticks over non-meta messages; each note-on with
positive velocity yields a buffered note whose `start_time` converts the
accumulated ticks to seconds via
`current_time * song_tempo / (ticks_per_beat * 1000000)`. -/
def loadNotesAux (song_tempo ticks_per_beat : ℚ) : List Msg → ℚ → List NoteData
  | [], _ => []
  | m :: ms, current_time =>
    if m.typ = MsgType.meta then loadNotesAux song_tempo ticks_per_beat ms current_time
    else
      let ct := current_time + m.time
      if m.typ = MsgType.note_on ∧ 0 < m.velocity then
        { midi_note := m.note, channel := m.channel, velocity := m.velocity,
          start_time := ct * song_tempo / (ticks_per_beat * 1000000),
          duration := 1, hand_left := m.channel ≠ 1,
          note_black := get_note_type_black m.note } ::
          loadNotesAux song_tempo ticks_per_beat ms ct
      else loadNotesAux song_tempo ticks_per_beat ms ct

/-- The per-event-seconds accumulation the spec describes
(`seconds = ticks * tempo_micros_per_beat / (ticks_per_beat * 1_000_000)`,
accumulated across the sequence).  Stated from the spec's words, to be
compared with `loadNotesAux`, which converts the accumulated tick total
instead. -/
def loadNotesSpec (song_tempo ticks_per_beat : ℚ) : List Msg → ℚ → List ℚ
  | [], _ => []
  | m :: ms, acc_seconds =>
    if m.typ = MsgType.meta then loadNotesSpec song_tempo ticks_per_beat ms acc_seconds
    else
      let acc := acc_seconds + m.time * song_tempo / (ticks_per_beat * 1000000)
      if m.typ = MsgType.note_on ∧ 0 < m.velocity then
        acc :: loadNotesSpec song_tempo ticks_per_beat ms acc
      else loadNotesSpec song_tempo ticks_per_beat ms acc

/-! ## Helper lemmas -/

lemma notes_time_of_le (msgs : List Msg) (t0 : ℚ) (h : ∀ m ∈ msgs, 0 ≤ m.time) :
    ∀ x ∈ notes_time_of msgs t0, t0 ≤ x := by
  induction msgs generalizing t0 with
  | nil => intro x hx; simp [notes_time_of] at hx
  | cons m ms ih =>
    intro x hx
    have htail : ∀ m' ∈ ms, 0 ≤ m'.time := fun m' hm' => h m' (List.mem_cons_of_mem _ hm')
    by_cases hm : m.typ = MsgType.meta
    · rw [notes_time_of, if_pos hm] at hx
      exact ih t0 htail x hx
    · rw [notes_time_of, if_neg hm] at hx
      have h0 : 0 ≤ m.time := h m (List.mem_cons_self _ _)
      rcases List.mem_cons.mp hx with rfl | hx'
      · linarith
      · have := ih (t0 + m.time) htail x hx'
        linarith

lemma notes_time_of_chain (msgs : List Msg) (t0 : ℚ) (h : ∀ m ∈ msgs, 0 ≤ m.time) :
    List.Chain' (· ≤ ·) (notes_time_of msgs t0) := by
  induction msgs generalizing t0 with
  | nil => simp [notes_time_of]
  | cons m ms ih =>
    have htail : ∀ m' ∈ ms, 0 ≤ m'.time := fun m' hm' => h m' (List.mem_cons_of_mem _ hm')
    by_cases hm : m.typ = MsgType.meta
    · rw [notes_time_of, if_pos hm]
      exact ih t0 htail
    · rw [notes_time_of, if_neg hm]
      rw [List.chain'_cons']
      refine ⟨?_, ih (t0 + m.time) htail⟩
      intro y hy
      exact notes_time_of_le ms (t0 + m.time) htail y (List.mem_of_mem_head? hy)

lemma loadNotesAux_map_start (song_tempo ticks_per_beat : ℚ) (msgs : List Msg) :
    ∀ ct : ℚ, (loadNotesAux song_tempo ticks_per_beat msgs ct).map NoteData.start_time =
      loadNotesSpec song_tempo ticks_per_beat msgs
        (ct * song_tempo / (ticks_per_beat * 1000000)) := by
  induction msgs with
  | nil => intro ct; simp [loadNotesAux, loadNotesSpec]
  | cons m ms ih =>
    intro ct
    have hacc : (ct + m.time) * song_tempo / (ticks_per_beat * 1000000) =
        ct * song_tempo / (ticks_per_beat * 1000000) +
          m.time * song_tempo / (ticks_per_beat * 1000000) := by ring
    by_cases hm : m.typ = MsgType.meta
    · rw [loadNotesAux, loadNotesSpec, if_pos hm, if_pos hm, ih ct]
    · by_cases hn : m.typ = MsgType.note_on ∧ 0 < m.velocity
      · rw [loadNotesAux, loadNotesSpec, if_neg hm, if_neg hm, if_pos hn, if_pos hn,
          List.map_cons, ih (ct + m.time), hacc]
      · rw [loadNotesAux, loadNotesSpec, if_neg hm, if_neg hm, if_neg hn, if_neg hn,
          ih (ct + m.time), hacc]

lemma pianoLayoutAux_map_midi (ns : List Nat) : ∀ wc : Int,
    (pianoLayoutAux ns wc).map PianoKey.midi_note = ns := by
  induction ns with
  | nil => intro wc; simp [pianoLayoutAux]
  | cons n ns ih =>
    intro wc
    by_cases hb : get_note_type_black n = true
    · simp [pianoLayoutAux, hb, ih]
    · simp [pianoLayoutAux, hb, ih]

lemma piano_keys_find_isSome (n : Nat) :
    (piano_keys.find? (fun k => k.midi_note == n)).isSome = true ↔ 21 ≤ n ∧ n ≤ 108 := by
  rw [List.find?_isSome]
  constructor
  · rintro ⟨k, hk, hp⟩
    have hkn : k.midi_note = n := by simpa using hp
    have hmem : k.midi_note ∈ piano_keys.map PianoKey.midi_note := List.mem_map_of_mem _ hk
    rw [piano_keys, pianoLayoutAux_map_midi, hkn] at hmem
    have := List.mem_range'_1.mp hmem
    omega
  · intro hn
    have hmem : n ∈ piano_keys.map PianoKey.midi_note := by
      rw [piano_keys, pianoLayoutAux_map_midi]
      exact List.mem_range'_1.mpr ⟨hn.1, by omega⟩
    rcases List.mem_map.mp hmem with ⟨k, hk, hkn⟩
    exact ⟨k, hk, by simp [hkn]⟩

lemma renderNote_isSome (lc : LearnColors) (st : RSettings) (t : ℚ) (nd : NoteData) :
    (renderNote lc st t nd).isSome = true ↔
      t ≤ nd.start_time ∧ nd.start_time ≤ t + st.fall_distance / 100 ∧
        21 ≤ nd.midi_note ∧ nd.midi_note ≤ 108 := by
  unfold renderNote
  by_cases hw : t ≤ nd.start_time ∧ nd.start_time ≤ t + st.fall_distance / 100
  · rw [if_pos hw]
    have hfind := piano_keys_find_isSome nd.midi_note
    cases hf : piano_keys.find? (fun k => k.midi_note == nd.midi_note) with
    | none =>
      rw [hf] at hfind
      simp only [Option.isSome_none, Bool.false_eq_true, false_iff, not_and] at hfind
      simp only [Option.isSome_none, Bool.false_eq_true, false_iff]
      tauto
    | some k =>
      rw [hf] at hfind
      simp only [Option.isSome_some, true_iff] at hfind
      simp only [Option.isSome_some, true_iff]
      tauto
  · rw [if_neg hw]
    simp only [Option.isSome_none, Bool.false_eq_true, false_iff]
    tauto

/-! ## Concrete fixtures used by witnesses and counterexamples -/

/-- A default enhanced color table (the source's fallback values). -/
def lcW : LearnColors :=
  ⟨⟨0,255,0⟩, ⟨0,128,0⟩, ⟨0,200,0⟩, ⟨0,100,0⟩, ⟨0,0,255⟩, ⟨0,0,128⟩, ⟨0,0,200⟩, ⟨0,0,100⟩⟩

/-- Renderer settings with `fall_distance = 200`, so the lookahead window is
`200 / 100 = 2` seconds. -/
def stW : RSettings := ⟨true, 1, 20, 80, true, 60, 600, 200⟩

/-- A buffered note starting at 6.5 seconds. -/
def ndA : NoteData := ⟨60, 1, 64, 13/2, 1, false, false⟩

/-- A buffered note starting at 8.0 seconds. -/
def ndB : NoteData := ⟨62, 1, 64, 8, 1, false, false⟩

/-- The frame entry `renderNote` produces for `ndA` at `current_time = 5`. -/
def fnA : FlyingNote := ⟨60, 460, 370, 20, 20, ⟨0,0,128⟩, false, 64, false⟩

/-! ## Claims about the flying-notes renderer -/

lemma piano_find_60 : piano_keys.find? (fun k => k.midi_note == (60:Nat)) =
    some ⟨60, 460, false, 20⟩ := by decide

lemma renderNote_ndA : renderNote lcW stW 5 ndA = some fnA := by
  simp only [renderNote, ndA, stW, fnA, lcW, get_learn_color]
  norm_num
  rw [piano_find_60]

lemma renderNote_ndB : renderNote lcW stW 5 ndB = none := by
  simp only [renderNote, ndB, stW]
  norm_num

lemma frame_concrete :
    (generate_frame_notes lcW stW 5 [ndA, ndB]).map FlyingNote.midi_note = [60] := by
  simp [generate_frame_notes, renderNote_ndA, renderNote_ndB, fnA]

/-- Claim C6: a buffered note appears in a frame's visible set exactly when
its `start_time` lies in `[current_time, current_time + fall_distance/100]`
and its MIDI note has an entry in the 88-key layout; concretely, with a
2-second lookahead window and `current_time = 5`, a note starting at 6.5
appears and a note starting at 8.0 does not. -/
theorem renderer_windowing :
    (∀ (lc : LearnColors) (st : RSettings) (t : ℚ) (nd : NoteData),
      (renderNote lc st t nd).isSome = true ↔
        t ≤ nd.start_time ∧ nd.start_time ≤ t + st.fall_distance / 100 ∧
          21 ≤ nd.midi_note ∧ nd.midi_note ≤ 108) ∧
    (∀ (lc : LearnColors) (st : RSettings) (t : ℚ) (buffer : List NoteData)
      (nd : NoteData) (fn : FlyingNote), nd ∈ buffer → renderNote lc st t nd = some fn →
        fn ∈ generate_frame_notes lc st t buffer) ∧
    (∀ (lc : LearnColors) (st : RSettings) (t : ℚ) (buffer : List NoteData)
      (fn : FlyingNote), fn ∈ generate_frame_notes lc st t buffer →
        ∃ nd ∈ buffer, renderNote lc st t nd = some fn) ∧
    (generate_frame_notes lcW stW 5 [ndA, ndB]).map FlyingNote.midi_note = [60] := by
  refine ⟨renderNote_isSome, ?_, ?_, frame_concrete⟩
  · intro lc st t buffer nd fn hnd hfn
    exact List.mem_filterMap.mpr ⟨nd, hnd, hfn⟩
  · intro lc st t buffer fn hfn
    exact List.mem_filterMap.mp hfn

/-- Claim C6 witness: the note starting at 6.5 seconds is rendered into the
frame at `current_time = 5` with a 2-second window. -/
theorem renderer_windowing_witness :
    ndA ∈ [ndA, ndB] ∧ renderNote lcW stW 5 ndA = some fnA ∧
      fnA ∈ generate_frame_notes lcW stW 5 [ndA, ndB] :=
  ⟨by simp, renderNote_ndA,
    renderer_windowing.2.1 lcW stW 5 [ndA, ndB] ndA fnA (by simp) renderNote_ndA⟩

/-- A renderer state that is active, with one connected client and one
buffered note. -/
def rstActive : RendererState := ⟨[1], true, [ndB], 0, stW⟩

/-- A renderer state that is already stopped, with one connected client. -/
def rstStopped : RendererState := ⟨[1], false, [], 0, stW⟩

/-- Claim C7 counterexample: stopping an already-stopped renderer emits
another terminal stop payload to the connected client — after
`stop_animation` has already stopped `rstActive`, a second call still sends
`[stopMsg]`, so a duplicate terminal event is emitted. -/
theorem stop_animation_counterexample :
    (stop_animation rstActive).1.is_active = false ∧
    (stop_animation (stop_animation rstActive).1).2 = [BMsg.stopMsg] := by decide

/-- Claim C7 (amended): `stop_animation` on an already-stopped renderer
raises no error and leaves the state unchanged (`is_active` already false,
buffer already empty), but it still emits one terminal stop payload per
connected client on every call, duplicates included. -/
theorem stop_animation_on_stopped (s : RendererState)
    (h1 : s.is_active = false) (h2 : s.notes_buffer = []) :
    (stop_animation s).1 = s ∧
    (stop_animation s).2 = s.websocket_clients.map (fun _ => BMsg.stopMsg) := by
  constructor
  · cases s
    simp only [stop_animation]
    simp_all
  · rfl

/-- Claim C7 witness: the amended statement at the concrete stopped state. -/
theorem stop_animation_on_stopped_witness :
    rstStopped.is_active = false ∧ rstStopped.notes_buffer = [] ∧
    ((stop_animation rstStopped).1 = rstStopped ∧
      (stop_animation rstStopped).2 = rstStopped.websocket_clients.map (fun _ => BMsg.stopMsg)) :=
  ⟨rfl, rfl, stop_animation_on_stopped rstStopped rfl rfl⟩

/-- Claim C10: `sync_with_learn_midi` is gated on activity — inactive
renderers are left completely unchanged; active renderers get exactly
`current_time` overwritten and every other field preserved. -/
theorem sync_gated_on_activity (s : RendererState) (p : ℚ) :
    (s.is_active = false → sync_with_learn_midi s p = s) ∧
    (s.is_active = true →
      (sync_with_learn_midi s p).current_time = p ∧
      (sync_with_learn_midi s p).is_active = s.is_active ∧
      (sync_with_learn_midi s p).websocket_clients = s.websocket_clients ∧
      (sync_with_learn_midi s p).notes_buffer = s.notes_buffer ∧
      (sync_with_learn_midi s p).settings = s.settings) := by
  constructor
  · intro h; simp [sync_with_learn_midi, h]
  · intro h; simp [sync_with_learn_midi, h]

/-- Claim C10 witness: both gating cases at concrete renderer states. -/
theorem sync_gated_on_activity_witness :
    (sync_with_learn_midi rstStopped 7 = rstStopped) ∧
    ((sync_with_learn_midi rstActive 7).current_time = 7 ∧
      (sync_with_learn_midi rstActive 7).is_active = rstActive.is_active ∧
      (sync_with_learn_midi rstActive 7).websocket_clients = rstActive.websocket_clients ∧
      (sync_with_learn_midi rstActive 7).notes_buffer = rstActive.notes_buffer ∧
      (sync_with_learn_midi rstActive 7).settings = rstActive.settings) :=
  ⟨(sync_gated_on_activity rstStopped 7).1 rfl,
    (sync_gated_on_activity rstActive 7).2 rfl⟩

/-! ## Claims about the timeline arithmetic -/

/-- Claim C8: `tick2second` equals
`ticks * tempo / (ticks_per_beat * 1_000_000)`; the engine's inter-event
delay equals `delta_ticks * effective_tempo / (ticks_per_beat * 1_000_000)`
with `effective_tempo = song_tempo * 100 / tempo_scale_pct`; and the
renderer's note start times (tick total converted once) coincide with
accumulating per-event seconds across the sequence. -/
theorem timing_arithmetic :
    (∀ tick ticks_per_beat tempo : ℚ,
      tick2second tick ticks_per_beat tempo = tick * tempo / (ticks_per_beat * 1000000)) ∧
    (∀ (cfg : Config) (msg : Msg),
      tDelayOf cfg msg =
        msg.time * (cfg.song_tempo * 100 / cfg.set_tempo) / (cfg.ticks_per_beat * 1000000)) ∧
    (∀ (song_tempo ticks_per_beat : ℚ) (msgs : List Msg),
      (loadNotesAux song_tempo ticks_per_beat msgs 0).map NoteData.start_time =
        loadNotesSpec song_tempo ticks_per_beat msgs 0) := by
  refine ⟨?_, ?_, ?_⟩
  · intro tick tpb tempo
    unfold tick2second
    ring
  · intro cfg msg
    unfold tDelayOf tick2second
    ring
  · intro st tpb msgs
    have h := loadNotesAux_map_start st tpb msgs 0
    simpa using h

/-- The song used by the timeline witness: a meta event, then two non-meta
events with non-negative deltas. -/
def msgsW : List Msg :=
  [⟨MsgType.meta, 0, 0, 0, 0⟩, ⟨MsgType.note_on, 60, 64, 1, 1/2⟩,
    ⟨MsgType.note_off, 60, 0, 1, 1/4⟩]

lemma msgsW_nonneg : ∀ m ∈ msgsW, 0 ≤ m.time := by
  simp only [msgsW, List.mem_cons, List.not_mem_nil, or_false]
  rintro m (rfl | rfl | rfl) <;> norm_num

/-- Claim C9: with non-negative per-event deltas, the accumulated
`notes_time` sequence is monotonically non-decreasing and its first entry is
at least 0. -/
theorem timeline_monotonicity (msgs : List Msg) (h : ∀ m ∈ msgs, 0 ≤ m.time) :
    List.Chain' (· ≤ ·) (notes_time_of msgs 0) ∧
    ∀ x, (notes_time_of msgs 0).head? = some x → 0 ≤ x := by
  refine ⟨notes_time_of_chain msgs 0 h, ?_⟩
  intro x hx
  exact notes_time_of_le msgs 0 h x (List.mem_of_mem_head? hx)

/-- Claim C9 witness: the monotonicity statement at a concrete song. -/
theorem timeline_monotonicity_witness :
    (∀ m ∈ msgsW, 0 ≤ m.time) ∧
    (List.Chain' (· ≤ ·) (notes_time_of msgsW 0) ∧
      ∀ x, (notes_time_of msgsW 0).head? = some x → 0 ≤ x) :=
  ⟨msgsW_nonneg, timeline_monotonicity msgsW msgsW_nonneg⟩

/-! ## Gate-wait lemmas -/

lemma drainStep_eng (tp : List Nat) (g : GateSt) (e : InEvent) :
    (drainStep tp g e).eng = g.eng ∨
    (drainStep tp g e).eng = { g.eng with pending_software_notes := [] } := by
  simp only [drainStep]
  split_ifs <;> first | (left; rfl) | (right; rfl)

lemma foldl_drain_eng (tp : List Nat) (evs : List InEvent) (g : GateSt) :
    (evs.foldl (drainStep tp) g).eng = g.eng ∨
    (evs.foldl (drainStep tp) g).eng = { g.eng with pending_software_notes := [] } := by
  induction evs generalizing g with
  | nil => left; rfl
  | cons e evs ih =>
    rw [List.foldl_cons]
    rcases ih (drainStep tp g e) with h | h <;> rcases drainStep_eng tp g e with h2 | h2 <;>
        rw [h, h2]
    · left; rfl
    · right; rfl
    · right; rfl
    · right; rfl

lemma foldl_drain_preserves (tp : List Nat) (evs : List InEvent) (g : GateSt) :
    ((evs.foldl (drainStep tp) g).eng.current_idx = g.eng.current_idx) ∧
    ((evs.foldl (drainStep tp) g).eng.is_started_midi = g.eng.is_started_midi) ∧
    ((evs.foldl (drainStep tp) g).eng.awaiting_restart_loop = g.eng.awaiting_restart_loop) ∧
    ((evs.foldl (drainStep tp) g).eng.mistakes_count = g.eng.mistakes_count) ∧
    ((evs.foldl (drainStep tp) g).eng.sent = g.eng.sent) ∧
    ((evs.foldl (drainStep tp) g).eng.restart_requests = g.eng.restart_requests) ∧
    ((evs.foldl (drainStep tp) g).eng.notes_to_press = g.eng.notes_to_press) := by
  rcases foldl_drain_eng tp evs g with h | h <;> rw [h] <;>
    exact ⟨rfl, rfl, rfl, rfl, rfl, rfl, rfl⟩

lemma handle_wrong_notes_preserves (cfg : Config) (wrong : List InEvent) (s : EngineState) :
    ((handle_wrong_notes cfg wrong s).current_idx = s.current_idx) ∧
    ((handle_wrong_notes cfg wrong s).pending_software_notes = s.pending_software_notes) ∧
    ((handle_wrong_notes cfg wrong s).sent = s.sent) ∧
    ((handle_wrong_notes cfg wrong s).is_started_midi = s.is_started_midi) ∧
    ((handle_wrong_notes cfg wrong s).notes_to_press = s.notes_to_press) := by
  simp only [handle_wrong_notes, restart_loop]
  split_ifs <;> exact ⟨rfl, rfl, rfl, rfl, rfl⟩

lemma procRound_current_idx (cfg : Config) (tp : List Nat) (r : Round) (g : GateSt) :
    (procRound cfg tp r g).eng.current_idx = g.eng.current_idx := by
  unfold procRound
  rw [(handle_wrong_notes_preserves _ _ _).1, (foldl_drain_preserves _ _ _).1]

lemma procRound_started (cfg : Config) (tp : List Nat) (r : Round) (g : GateSt)
    (h : r.stopReq = false) :
    (procRound cfg tp r g).eng.is_started_midi = g.eng.is_started_midi := by
  unfold procRound
  rw [(handle_wrong_notes_preserves _ _ _).2.2.2.1, (foldl_drain_preserves _ _ _).2.1]
  simp [h]

lemma gateWait_current_idx (cfg : Config) (tp : List Nat) :
    ∀ (rounds : List Round) (g : GateSt),
      ((gateWait cfg tp rounds g).2).eng.current_idx = g.eng.current_idx := by
  intro rounds
  induction rounds with
  | nil => intro g; unfold gateWait; split_ifs <;> rfl
  | cons r rs ih =>
    intro g
    unfold gateWait
    split_ifs
    · rfl
    · rfl
    · rw [ih (procRound cfg tp r g), procRound_current_idx]

lemma gateWait_exited_iff (cfg : Config) (tp : List Nat) :
    ∀ (rounds : List Round) (g : GateSt), (∀ r ∈ rounds, r.stopReq = false) →
      g.eng.is_started_midi = true →
      ((gateWait cfg tp rounds g).1 = GateOutcome.exited ↔
        subsetB tp (gateWait cfg tp rounds g).2.pressed = true) := by
  intro rounds
  induction rounds with
  | nil =>
    intro g _ hs
    unfold gateWait
    simp only [hs, Bool.not_true, Bool.or_false]
    by_cases hsub : subsetB tp g.pressed = true
    · rw [if_pos hsub]; simp [hsub]
    · rw [if_neg hsub]
      split_ifs <;> simp [hsub]
  | cons r rs ih =>
    intro g hr hs
    unfold gateWait
    simp only [hs, Bool.not_true, Bool.or_false]
    by_cases hsub : subsetB tp g.pressed = true
    · rw [if_pos hsub]; simp [hsub]
    · rw [if_neg hsub]
      split_ifs with haw
      · simp [hsub]
      · exact ih (procRound cfg tp r g)
          (fun r' hr' => hr r' (List.mem_cons_of_mem _ hr'))
          (by rw [procRound_started cfg tp r g (hr r (List.mem_cons_self _ _))]; exact hs)

/-- The claim's notion of "currently pressed": the last note-on/off seen for
note `n` decides whether it is down (note-ons with velocity > 0, minus
subsequent note-offs), starting from `init`. -/
def heldAfter (n : Nat) (evs : List InEvent) (init : Bool) : Bool :=
  evs.foldl
    (fun h e => if e.kind ≠ EvKind.other ∧ e.note = n then decide (0 < effVelocity e) else h)
    init

lemma drainStep_pressed_nodup (tp : List Nat) (g : GateSt) (e : InEvent)
    (h : g.pressed.Nodup) : (drainStep tp g e).pressed.Nodup := by
  simp only [drainStep]
  split_ifs <;>
    first
      | exact h
      | exact List.Nodup.erase _ h
      | simp_all [List.nodup_append]

lemma drainStep_pressed_mem_ne (tp : List Nat) (g : GateSt) (e : InEvent) (n : Nat)
    (hne : e.note ≠ n) : (n ∈ (drainStep tp g e).pressed ↔ n ∈ g.pressed) := by
  have hne' : n ≠ e.note := Ne.symm hne
  simp only [drainStep]
  split_ifs <;>
    first
      | exact Iff.rfl
      | exact List.mem_erase_of_ne hne'
      | simp [List.mem_append, hne']

lemma drain_mem_held (tp : List Nat) (n : Nat) (hn : n ∈ tp) :
    ∀ (evs : List InEvent) (g : GateSt), g.pressed.Nodup →
      (n ∈ (evs.foldl (drainStep tp) g).pressed ↔
        heldAfter n evs (decide (n ∈ g.pressed)) = true) := by
  intro evs
  induction evs with
  | nil =>
    intro g _
    simp [heldAfter]
  | cons e evs ih =>
    intro g hnodup
    rw [List.foldl_cons]
    have hnodup1 : (drainStep tp g e).pressed.Nodup := drainStep_pressed_nodup tp g e hnodup
    have hstep : heldAfter n (e :: evs) (decide (n ∈ g.pressed)) =
        heldAfter n evs
          (if e.kind ≠ EvKind.other ∧ e.note = n then decide (0 < effVelocity e)
            else decide (n ∈ g.pressed)) := rfl
    rw [hstep]
    by_cases hcond : e.kind ≠ EvKind.other ∧ e.note = n
    · rw [if_pos hcond]
      obtain ⟨hk, hnote⟩ := hcond
      have hmem : n ∈ (drainStep tp g e).pressed ↔ 0 < effVelocity e := by
        simp only [drainStep]
        rw [if_neg (by simpa using hk)]
        have htp : ¬ e.note ∉ tp := by rw [hnote]; simpa using hn
        rw [if_neg htp]
        by_cases hv : 0 < effVelocity e
        · rw [if_pos hv]
          subst hnote
          by_cases hp : e.note ∈ g.pressed
          · simpa [hp] using hv
          · simp [hp, hv]
        · rw [if_neg hv]
          subst hnote
          simp [hnodup.not_mem_erase, hv]
      rw [ih (drainStep tp g e) hnodup1, decide_eq_decide.mpr hmem]
    · rw [if_neg hcond]
      have hinit : (decide (n ∈ (drainStep tp g e).pressed)) = (decide (n ∈ g.pressed)) := by
        by_cases hk : e.kind = EvKind.other
        · simp [drainStep, hk]
        · have hne : e.note ≠ n := by
            intro hEq
            exact hcond ⟨hk, hEq⟩
          exact decide_eq_decide.mpr (drainStep_pressed_mem_ne tp g e n hne)
      rw [ih (drainStep tp g e) hnodup1, hinit]

lemma drain_ons_mem (tp : List Nat) :
    ∀ (evs : List InEvent), (∀ e ∈ evs, e.kind = EvKind.noteOn ∧ 0 < e.velocity ∧ e.note ∈ tp) →
      ∀ (g : GateSt) (x : Nat),
        (x ∈ (evs.foldl (drainStep tp) g).pressed ↔
          x ∈ g.pressed ∨ ∃ e ∈ evs, e.note = x) := by
  intro evs
  induction evs with
  | nil => intro _ g x; simp
  | cons e evs ih =>
    intro h g x
    obtain ⟨hk, hv, htp⟩ := h e (List.mem_cons_self _ _)
    have htail := fun e' he' => h e' (List.mem_cons_of_mem _ he')
    rw [List.foldl_cons, ih htail]
    have heff : 0 < effVelocity e := by simpa [effVelocity, hk] using hv
    have hpressed : x ∈ (drainStep tp g e).pressed ↔ (x ∈ g.pressed ∨ e.note = x) := by
      simp only [drainStep]
      rw [if_neg (by simp [hk]), if_neg (by simpa using htp), if_pos heff]
      by_cases hp : e.note ∈ g.pressed
      · rw [if_pos hp]
        constructor
        · exact Or.inl
        · rintro (hy | rfl)
          · exact hy
          · exact hp
      · rw [if_neg hp]
        simp [List.mem_append, eq_comm]
    rw [hpressed]
    constructor
    · rintro ((hx | hx) | ⟨e', he', hx⟩)
      · exact Or.inl hx
      · exact Or.inr ⟨e, List.mem_cons_self _ _, hx⟩
      · exact Or.inr ⟨e', List.mem_cons_of_mem _ he', hx⟩
    · rintro (hx | ⟨e', he', hx⟩)
      · exact Or.inl (Or.inl hx)
      · rcases List.mem_cons.mp he' with rfl | he''
        · exact Or.inl (Or.inr hx)
        · exact Or.inr ⟨e', he'', hx⟩

/-! ## Claims about the gate wait -/

/-- A Melody-mode configuration (practicing the right hand, wrong-note
display on, mistake threshold 3). -/
def cfgW : Config :=
  { practice := 0, hands := 1, mute_hand := 0, show_wrong_notes := 1, show_future_notes := 0,
    number_of_mistakes := 3, is_led_activeL := 1, is_led_activeR := 1,
    set_tempo := 100, song_tempo := 500000, ticks_per_beat := 240,
    start_point := 0, end_point := 100, is_loop_active := true, notes_time := [],
    notePos := fun n => n }

/-- A running engine state at a gate expecting notes 60 and 64. -/
def engW : EngineState :=
  { current_idx := 0, absolute_idx := 0, notes_to_press := [60, 64],
    pending_software_notes := [], mistakes_count := 0, awaiting_restart_loop := false,
    is_started_midi := true, hand_hint_notesL := [], hand_hint_notesR := [],
    socket_send := [], sent := [], restart_requests := 0, next_note_time := none }

/-- The gate-wait local state at entry (`notes_pressed = []`,
`wrong_notes = []`). -/
def gW : GateSt := ⟨[], [], engW⟩

/-- A note-on input event with velocity 64. -/
def onEv (n : Nat) : InEvent := ⟨EvKind.noteOn, n, 64⟩

/-- One drain round delivering note-ons 64 then 60, with no asynchronous
flag writes. -/
def roundsW : List Round := [⟨false, false, [onEv 64, onEv 60]⟩]

/-- Both delivery orders of the expected note-ons 60 and 64 satisfy the gate,
and delivering only one of them leaves it waiting. -/
lemma gate_both_orders :
    (gateWait cfgW [60, 64] [⟨false, false, [onEv 60, onEv 64]⟩] gW).1 = GateOutcome.exited ∧
    (gateWait cfgW [60, 64] [⟨false, false, [onEv 64, onEv 60]⟩] gW).1 = GateOutcome.exited ∧
    (gateWait cfgW [60, 64] [⟨false, false, [onEv 60]⟩] gW).1 = GateOutcome.waiting := by
  decide

/-- Claim C2: while the engine stays started and unless a restart is
requested, the gate-wait loop leaves `current_idx` untouched, exits through
its loop condition exactly when `notes_to_press` is a subset of the notes
currently pressed, the pressed-set membership of an expected note is decided
by its last note-on/off among the drained events (note-ons with velocity > 0
minus subsequent note-offs), and for a drain of expected note-ons the
pressed set depends only on the set of delivered notes, not their order. -/
theorem gate_wait_correctness (cfg : Config) (tp : List Nat) (rounds : List Round)
    (g : GateSt)
    (hs : g.eng.is_started_midi = true) (hstop : ∀ r ∈ rounds, r.stopReq = false) :
    ((gateWait cfg tp rounds g).2.eng.current_idx = g.eng.current_idx) ∧
    ((gateWait cfg tp rounds g).1 = GateOutcome.exited ↔
      subsetB tp (gateWait cfg tp rounds g).2.pressed = true) ∧
    (∀ (evs : List InEvent) (n : Nat), n ∈ tp → g.pressed.Nodup →
      (n ∈ (evs.foldl (drainStep tp) g).pressed ↔
        heldAfter n evs (decide (n ∈ g.pressed)) = true)) ∧
    (∀ evs : List InEvent,
      (∀ e ∈ evs, e.kind = EvKind.noteOn ∧ 0 < e.velocity ∧ e.note ∈ tp) →
      ∀ x, x ∈ (evs.foldl (drainStep tp) g).pressed ↔
        x ∈ g.pressed ∨ ∃ e ∈ evs, e.note = x) := by
  refine ⟨gateWait_current_idx cfg tp rounds g,
    gateWait_exited_iff cfg tp rounds g hstop hs, ?_, ?_⟩
  · intro evs n hn hnodup
    exact drain_mem_held tp n hn evs g hnodup
  · intro evs hevs x
    exact drain_ons_mem tp evs hevs g x

/-- Claim C2 witness: the gate-wait statement at the concrete gate
`notes_to_press = [60, 64]` with one drain round delivering 64 then 60. -/
theorem gate_wait_correctness_witness :
    (gW.eng.is_started_midi = true) ∧ (∀ r ∈ roundsW, r.stopReq = false) ∧
    (((gateWait cfgW [60, 64] roundsW gW).2.eng.current_idx = gW.eng.current_idx) ∧
      ((gateWait cfgW [60, 64] roundsW gW).1 = GateOutcome.exited ↔
        subsetB [60, 64] (gateWait cfgW [60, 64] roundsW gW).2.pressed = true) ∧
      (∀ (evs : List InEvent) (n : Nat), n ∈ [60, 64] → gW.pressed.Nodup →
        (n ∈ (evs.foldl (drainStep [60, 64]) gW).pressed ↔
          heldAfter n evs (decide (n ∈ gW.pressed)) = true)) ∧
      (∀ evs : List InEvent,
        (∀ e ∈ evs, e.kind = EvKind.noteOn ∧ 0 < e.velocity ∧ e.note ∈ [60, 64]) →
        ∀ x, x ∈ (evs.foldl (drainStep [60, 64]) gW).pressed ↔
          x ∈ gW.pressed ∨ ∃ e ∈ evs, e.note = x)) :=
  ⟨rfl, by decide, gate_wait_correctness cfgW [60, 64] roundsW gW rfl (by decide)⟩

/-! ## Claims about the wrong-note handler and mistake threshold -/

lemma countQualifying_singleton (e : InEvent) (h : 0 < effVelocity e) :
    countQualifying [e] = 1 := by
  simp [countQualifying, h]

lemma handle_wrong_one (cfg : Config) (e : InEvent) (s : EngineState)
    (hshow : cfg.show_wrong_notes = 1) (hq : 0 < effVelocity e) :
    handle_wrong_notes cfg [e] s =
      if cfg.number_of_mistakes < s.mistakes_count + 1 ∧ 0 < cfg.number_of_mistakes then
        restart_loop { s with mistakes_count := 0 }
      else { s with mistakes_count := s.mistakes_count + 1 } := by
  simp [handle_wrong_notes, hshow, countQualifying_singleton e hq]

/-- Claim C3: with the wrong-note display enabled and `number_of_mistakes`
set to 3, three qualifying wrong note-ons raise `mistakes_count` to 3 with no
restart requested; the fourth makes the count exceed the threshold, which
resets `mistakes_count` to 0 and issues exactly one `restart_loop` call
(counted by `restart_requests`), never touching `is_started_midi`. -/
theorem mistake_threshold_restart (cfg : Config) (s : EngineState)
    (e1 e2 e3 e4 : InEvent)
    (hshow : cfg.show_wrong_notes = 1) (hthr : cfg.number_of_mistakes = 3)
    (hm : s.mistakes_count = 0) (haw : s.awaiting_restart_loop = false)
    (q1 : 0 < effVelocity e1) (q2 : 0 < effVelocity e2) (q3 : 0 < effVelocity e3)
    (q4 : 0 < effVelocity e4) :
    ((handle_wrong_notes cfg [e1] s).mistakes_count = 1) ∧
    ((handle_wrong_notes cfg [e2] (handle_wrong_notes cfg [e1] s)).mistakes_count = 2) ∧
    ((handle_wrong_notes cfg [e3] (handle_wrong_notes cfg [e2]
        (handle_wrong_notes cfg [e1] s))).mistakes_count = 3) ∧
    ((handle_wrong_notes cfg [e3] (handle_wrong_notes cfg [e2]
        (handle_wrong_notes cfg [e1] s))).awaiting_restart_loop = false) ∧
    ((handle_wrong_notes cfg [e3] (handle_wrong_notes cfg [e2]
        (handle_wrong_notes cfg [e1] s))).restart_requests = s.restart_requests) ∧
    ((handle_wrong_notes cfg [e4] (handle_wrong_notes cfg [e3] (handle_wrong_notes cfg [e2]
        (handle_wrong_notes cfg [e1] s)))).mistakes_count = 0) ∧
    ((handle_wrong_notes cfg [e4] (handle_wrong_notes cfg [e3] (handle_wrong_notes cfg [e2]
        (handle_wrong_notes cfg [e1] s)))).awaiting_restart_loop = true) ∧
    ((handle_wrong_notes cfg [e4] (handle_wrong_notes cfg [e3] (handle_wrong_notes cfg [e2]
        (handle_wrong_notes cfg [e1] s)))).restart_requests = s.restart_requests + 1) ∧
    ((handle_wrong_notes cfg [e4] (handle_wrong_notes cfg [e3] (handle_wrong_notes cfg [e2]
        (handle_wrong_notes cfg [e1] s)))).is_started_midi = s.is_started_midi) := by
  have h1 : handle_wrong_notes cfg [e1] s = { s with mistakes_count := 1 } := by
    rw [handle_wrong_one cfg e1 s hshow q1, hthr, hm]
    simp
  have h2 : handle_wrong_notes cfg [e2] { s with mistakes_count := 1 } =
      { s with mistakes_count := 2 } := by
    rw [handle_wrong_one cfg e2 _ hshow q2, hthr]
    simp
  have h3 : handle_wrong_notes cfg [e3] { s with mistakes_count := 2 } =
      { s with mistakes_count := 3 } := by
    rw [handle_wrong_one cfg e3 _ hshow q3, hthr]
    simp
  have h4 : handle_wrong_notes cfg [e4] { s with mistakes_count := 3 } =
      restart_loop { s with mistakes_count := 0 } := by
    rw [handle_wrong_one cfg e4 _ hshow q4, hthr]
    simp
  simp only [h1, h2, h3, h4, restart_loop]
  simp [haw]

/-- Claim C3 witness: four wrong note-ons on key 67 against threshold 3. -/
theorem mistake_threshold_restart_witness :
    cfgW.show_wrong_notes = 1 ∧ cfgW.number_of_mistakes = 3 ∧
    engW.mistakes_count = 0 ∧ engW.awaiting_restart_loop = false ∧
    0 < effVelocity (onEv 67) ∧
    (((handle_wrong_notes cfgW [onEv 67] engW).mistakes_count = 1) ∧
      ((handle_wrong_notes cfgW [onEv 67] (handle_wrong_notes cfgW [onEv 67]
          engW)).mistakes_count = 2) ∧
      ((handle_wrong_notes cfgW [onEv 67] (handle_wrong_notes cfgW [onEv 67]
          (handle_wrong_notes cfgW [onEv 67] engW))).mistakes_count = 3) ∧
      ((handle_wrong_notes cfgW [onEv 67] (handle_wrong_notes cfgW [onEv 67]
          (handle_wrong_notes cfgW [onEv 67] engW))).awaiting_restart_loop = false) ∧
      ((handle_wrong_notes cfgW [onEv 67] (handle_wrong_notes cfgW [onEv 67]
          (handle_wrong_notes cfgW [onEv 67] engW))).restart_requests =
        engW.restart_requests) ∧
      ((handle_wrong_notes cfgW [onEv 67] (handle_wrong_notes cfgW [onEv 67]
          (handle_wrong_notes cfgW [onEv 67] (handle_wrong_notes cfgW [onEv 67]
            engW)))).mistakes_count = 0) ∧
      ((handle_wrong_notes cfgW [onEv 67] (handle_wrong_notes cfgW [onEv 67]
          (handle_wrong_notes cfgW [onEv 67] (handle_wrong_notes cfgW [onEv 67]
            engW)))).awaiting_restart_loop = true) ∧
      ((handle_wrong_notes cfgW [onEv 67] (handle_wrong_notes cfgW [onEv 67]
          (handle_wrong_notes cfgW [onEv 67] (handle_wrong_notes cfgW [onEv 67]
            engW)))).restart_requests = engW.restart_requests + 1) ∧
      ((handle_wrong_notes cfgW [onEv 67] (handle_wrong_notes cfgW [onEv 67]
          (handle_wrong_notes cfgW [onEv 67] (handle_wrong_notes cfgW [onEv 67]
            engW)))).is_started_midi = engW.is_started_midi)) :=
  ⟨rfl, rfl, rfl, rfl, by decide,
    mistake_threshold_restart cfgW engW (onEv 67) (onEv 67) (onEv 67) (onEv 67)
      rfl rfl rfl rfl (by decide) (by decide) (by decide) (by decide)⟩

/-! ## Claims about software-note deferral and wrong-note isolation -/

lemma hintPhase_fields (cfg : Config) (msg : Msg) (s : EngineState) :
    ((hintPhase cfg msg s).pending_software_notes = s.pending_software_notes) ∧
    ((hintPhase cfg msg s).sent = s.sent) ∧
    ((hintPhase cfg msg s).notes_to_press = s.notes_to_press) ∧
    ((hintPhase cfg msg s).awaiting_restart_loop = s.awaiting_restart_loop) := by
  simp only [hintPhase]
  split_ifs <;> exact ⟨rfl, rfl, rfl, rfl⟩

lemma toPressPhase_fields (cfg : Config) (msg : Msg) (s : EngineState) :
    ((toPressPhase cfg msg s).pending_software_notes = s.pending_software_notes) ∧
    ((toPressPhase cfg msg s).sent = s.sent) ∧
    ((toPressPhase cfg msg s).awaiting_restart_loop = s.awaiting_restart_loop) := by
  simp only [toPressPhase]
  split_ifs <;> exact ⟨rfl, rfl, rfl⟩

lemma softwarePhase_fields (cfg : Config) (msg : Msg) (s : EngineState) :
    ((softwarePhase cfg msg s).awaiting_restart_loop = s.awaiting_restart_loop) ∧
    ((softwarePhase cfg msg s).notes_to_press = s.notes_to_press) := by
  simp only [softwarePhase]
  split_ifs <;> exact ⟨rfl, rfl⟩

lemma toPressPhase_ntp_ne (cfg : Config) (msg : Msg) (s : EngineState)
    (h : s.notes_to_press ≠ []) : (toPressPhase cfg msg s).notes_to_press ≠ [] := by
  simp only [toPressPhase]
  split_ifs <;> simp_all

lemma softwarePhase_buffer (cfg : Config) (msg : Msg) (s : EngineState)
    (hsw : softwareCond cfg msg) (hpr : cfg.practice ≠ 2)
    (hntp : s.notes_to_press ≠ []) :
    (softwarePhase cfg msg s).pending_software_notes = s.pending_software_notes ++ [msg] ∧
    (softwarePhase cfg msg s).sent = s.sent := by
  simp only [softwarePhase]
  rw [if_pos hsw, if_neg hpr, if_pos hntp]
  exact ⟨rfl, rfl⟩

lemma toPress_software_disjoint (cfg : Config) (msg : Msg) (hpr : cfg.practice ≠ 2)
    (hsw : softwareCond cfg msg) :
    ¬(msg.typ = MsgType.note_on ∧ 0 < msg.velocity ∧
      (msg.channel = cfg.hands ∨ cfg.hands = 0)) := by
  rcases hsw with ⟨hh, -, hch⟩ | ⟨hh, -, hch⟩ | hp2
  · rintro ⟨-, -, hc | hc⟩ <;> omega
  · rintro ⟨-, -, hc | hc⟩ <;> omega
  · exact absurd hp2 hpr

/-- Claim C4: a software note arriving while `notes_to_press` is non-empty
(outside Listen mode) is appended to `pending_software_notes` and nothing is
sent; once the gate is satisfied the epilogue sends the whole pending buffer
and clears it; and a wrong note with positive velocity during the drain
clears the pending buffer without sending anything. -/
theorem pending_software_deferral (cfg : Config) (msg : Msg) (s : EngineState)
    (tp : List Nat) (g : GateSt) (e : InEvent) :
    (s.notes_to_press ≠ [] → softwareCond cfg msg → cfg.practice ≠ 2 →
      (lightAndRoute cfg msg s).pending_software_notes = s.pending_software_notes ++ [msg] ∧
      (lightAndRoute cfg msg s).sent = s.sent) ∧
    (subsetB g.eng.notes_to_press g.pressed = true →
      (gateEpilogue g).sent = g.eng.sent ++ g.eng.pending_software_notes ∧
      (gateEpilogue g).pending_software_notes = []) ∧
    (e.note ∉ tp → 0 < effVelocity e → e.kind ≠ EvKind.other →
      (drainStep tp g e).eng.pending_software_notes = [] ∧
      (drainStep tp g e).eng.sent = g.eng.sent) := by
  refine ⟨?_, ?_, ?_⟩
  · intro hntp hsw hpr
    have ht1 := hintPhase_fields cfg msg s
    have ht2 := toPressPhase_fields cfg msg (hintPhase cfg msg s)
    have hne : (toPressPhase cfg msg (hintPhase cfg msg s)).notes_to_press ≠ [] :=
      toPressPhase_ntp_ne cfg msg _ (by rw [ht1.2.2.1]; exact hntp)
    have hb := softwarePhase_buffer cfg msg _ hsw hpr hne
    unfold lightAndRoute
    constructor
    · rw [hb.1, ht2.1, ht1.1]
    · rw [hb.2, ht2.2.1, ht1.2.1]
  · intro hsub
    simp only [gateEpilogue]
    split_ifs with h <;> simp_all
  · intro hnot hv hk
    simp only [drainStep]
    rw [if_neg hk, if_pos hnot, if_pos hv]
    exact ⟨rfl, rfl⟩

/-- A left-hand (channel 2) software note while the right hand is practiced. -/
def msgSW : Msg := ⟨MsgType.note_on, 40, 64, 2, 0⟩

/-- A gate state whose expected notes [60, 64] are all currently pressed. -/
def gSat : GateSt := ⟨[64, 60], [], engW⟩

/-- Claim C4 witness: all three deferral behaviours at concrete inputs. -/
theorem pending_software_deferral_witness :
    (engW.notes_to_press ≠ []) ∧ softwareCond cfgW msgSW ∧ cfgW.practice ≠ 2 ∧
    subsetB gSat.eng.notes_to_press gSat.pressed = true ∧
    ((onEv 67).note ∉ [60, 64]) ∧ 0 < effVelocity (onEv 67) ∧
    (onEv 67).kind ≠ EvKind.other ∧
    ((lightAndRoute cfgW msgSW engW).pending_software_notes =
        engW.pending_software_notes ++ [msgSW] ∧
      (lightAndRoute cfgW msgSW engW).sent = engW.sent) ∧
    ((gateEpilogue gSat).sent = gSat.eng.sent ++ gSat.eng.pending_software_notes ∧
      (gateEpilogue gSat).pending_software_notes = []) ∧
    ((drainStep [60, 64] gSat (onEv 67)).eng.pending_software_notes = [] ∧
      (drainStep [60, 64] gSat (onEv 67)).eng.sent = gSat.eng.sent) := by
  refine ⟨by decide, by decide, by decide, by decide, by decide, by decide, by decide,
    ?_, ?_, ?_⟩
  · exact (pending_software_deferral cfgW msgSW engW [60, 64] gSat (onEv 67)).1
      (by decide) (by decide) (by decide)
  · exact (pending_software_deferral cfgW msgSW engW [60, 64] gSat (onEv 67)).2.1 (by decide)
  · exact (pending_software_deferral cfgW msgSW engW [60, 64] gSat (onEv 67)).2.2
      (by decide) (by decide) (by decide)

/-- Claim C5: an input note-on with positive velocity whose note is outside
`notes_to_press` is appended to the wrong batch, leaves the pressed set (and
hence gate satisfaction) unchanged, and — with the wrong-note display on and
the threshold not being crossed by this increment — raises `mistakes_count`
by exactly one. -/
theorem wrong_note_isolation (cfg : Config) (tp : List Nat) (g : GateSt) (e : InEvent)
    (hnot : e.note ∉ tp) (hk : e.kind = EvKind.noteOn) (hv : 0 < e.velocity) :
    ((drainStep tp g e).wrong = g.wrong ++ [e]) ∧
    ((drainStep tp g e).pressed = g.pressed) ∧
    (subsetB tp (drainStep tp g e).pressed = subsetB tp g.pressed) ∧
    (cfg.show_wrong_notes = 1 →
      ¬(cfg.number_of_mistakes < g.eng.mistakes_count + 1 ∧ 0 < cfg.number_of_mistakes) →
      (handle_wrong_notes cfg [e] g.eng).mistakes_count = g.eng.mistakes_count + 1) := by
  have heff : 0 < effVelocity e := by simpa [effVelocity, hk] using hv
  have hk' : e.kind ≠ EvKind.other := by simp [hk]
  have hdrain : drainStep tp g e =
      { pressed := g.pressed, wrong := g.wrong ++ [e],
        eng := { g.eng with pending_software_notes := [] } } := by
    simp only [drainStep]
    rw [if_neg hk', if_pos hnot, if_pos heff]
  refine ⟨by rw [hdrain], by rw [hdrain], by rw [hdrain], ?_⟩
  intro hshow hncross
  rw [handle_wrong_one cfg e g.eng hshow heff, if_neg hncross]

/-- Claim C5 witness: note-on 67 against `notes_to_press = [60]`. -/
theorem wrong_note_isolation_witness :
    ((onEv 67).note ∉ [60]) ∧ (onEv 67).kind = EvKind.noteOn ∧ 0 < (onEv 67).velocity ∧
    cfgW.show_wrong_notes = 1 ∧
    ¬(cfgW.number_of_mistakes < gW.eng.mistakes_count + 1 ∧ 0 < cfgW.number_of_mistakes) ∧
    (((drainStep [60] gW (onEv 67)).wrong = gW.wrong ++ [onEv 67]) ∧
      ((drainStep [60] gW (onEv 67)).pressed = gW.pressed) ∧
      (subsetB [60] (drainStep [60] gW (onEv 67)).pressed = subsetB [60] gW.pressed) ∧
      ((handle_wrong_notes cfgW [onEv 67] gW.eng).mistakes_count =
        gW.eng.mistakes_count + 1)) := by
  refine ⟨by decide, by decide, by decide, by decide, by decide, ?_⟩
  obtain ⟨h1, h2, h3, h4⟩ := wrong_note_isolation cfgW [60] gW (onEv 67)
    (by decide) (by decide) (by decide)
  exact ⟨h1, h2, h3, h4 (by decide) (by decide)⟩

/-! ## Restart-determinism machinery (claim C1) -/

lemma countQualifying_append_one (w : List InEvent) (e : InEvent) :
    countQualifying (w ++ [e]) =
      countQualifying w + (if 0 < effVelocity e then 1 else 0) := by
  simp only [countQualifying, List.filter_append]
  by_cases h : 0 < effVelocity e <;> simp [h]

lemma drainStep_wrong_cases (tp : List Nat) (g : GateSt) (e : InEvent) :
    ((drainStep tp g e).wrong = g.wrong ∧
      (drainStep tp g e).eng.pending_software_notes = g.eng.pending_software_notes) ∨
    ((drainStep tp g e).wrong = g.wrong ++ [e] ∧ effVelocity e = 0 ∧
      (drainStep tp g e).eng.pending_software_notes = g.eng.pending_software_notes) ∨
    ((drainStep tp g e).wrong = g.wrong ++ [e] ∧ 0 < effVelocity e ∧
      (drainStep tp g e).eng.pending_software_notes = []) := by
  simp only [drainStep]
  split_ifs <;>
    first
      | exact Or.inl ⟨rfl, rfl⟩
      | exact Or.inr (Or.inr ⟨rfl, by assumption, rfl⟩)
      | exact Or.inr (Or.inl ⟨rfl, by omega, rfl⟩)

lemma foldl_drain_pending_nil (tp : List Nat) (evs : List InEvent) (g : GateSt)
    (h : g.eng.pending_software_notes = []) :
    (evs.foldl (drainStep tp) g).eng.pending_software_notes = [] := by
  rcases foldl_drain_eng tp evs g with h1 | h1 <;> simp [h1, h]

lemma foldl_drain_qual_clear (tp : List Nat) :
    ∀ (evs : List InEvent) (g : GateSt),
      countQualifying g.wrong < countQualifying ((evs.foldl (drainStep tp) g).wrong) →
      (evs.foldl (drainStep tp) g).eng.pending_software_notes = [] := by
  intro evs
  induction evs with
  | nil => intro g h; exact absurd h (lt_irrefl _)
  | cons e evs ih =>
    intro g h
    rw [List.foldl_cons] at h ⊢
    rcases drainStep_wrong_cases tp g e with ⟨hw, _⟩ | ⟨hw, hv, _⟩ | ⟨hw, hv, hp⟩
    · exact ih (drainStep tp g e) (by rwa [hw])
    · refine ih (drainStep tp g e) ?_
      rw [hw, countQualifying_append_one, if_neg (by omega)]
      simpa using h
    · exact foldl_drain_pending_nil tp evs _ hp

lemma handle_wrong_awaiting_true (cfg : Config) (w : List InEvent) (s : EngineState)
    (h : s.awaiting_restart_loop = true) :
    (handle_wrong_notes cfg w s).awaiting_restart_loop = true := by
  simp only [handle_wrong_notes, restart_loop]
  split_ifs <;> simp [h]

lemma handle_wrong_fire (cfg : Config) (w : List InEvent) (s : EngineState)
    (hm : 0 < cfg.number_of_mistakes → s.mistakes_count ≤ cfg.number_of_mistakes)
    (haw : s.awaiting_restart_loop = false) :
    ((handle_wrong_notes cfg w s).awaiting_restart_loop = false ∧
      (0 < cfg.number_of_mistakes →
        (handle_wrong_notes cfg w s).mistakes_count ≤ cfg.number_of_mistakes)) ∨
    ((handle_wrong_notes cfg w s).awaiting_restart_loop = true ∧
      0 < countQualifying w) := by
  simp only [handle_wrong_notes, restart_loop]
  split_ifs with h1 h2
  · exact Or.inl ⟨haw, hm⟩
  · refine Or.inr ⟨rfl, ?_⟩
    have := hm h2.2
    omega
  · refine Or.inl ⟨haw, ?_⟩
    intro hpos
    by_cases hlt : cfg.number_of_mistakes < s.mistakes_count + countQualifying w
    · exact absurd ⟨hlt, hpos⟩ h2
    · simp only [EngineState.mistakes_count]
      omega

/-- The invariant the gate wait maintains on its engine state when no manual
restart request arrives: either no restart is pending and the mistake count
respects the threshold, or a restart is pending and the pending software
notes have been forfeited by the wrong note that caused it. -/
def gateInv (cfg : Config) (g : GateSt) : Prop :=
  (g.eng.awaiting_restart_loop = false ∧
    (0 < cfg.number_of_mistakes → g.eng.mistakes_count ≤ cfg.number_of_mistakes)) ∨
  (g.eng.awaiting_restart_loop = true ∧ g.eng.pending_software_notes = [])

lemma procRound_inv (cfg : Config) (tp : List Nat) (r : Round) (g : GateSt)
    (hr : r.restartReq = false) (hw : g.wrong = []) (hinv : gateInv cfg g) :
    gateInv cfg (procRound cfg tp r g) ∧ (procRound cfg tp r g).wrong = [] := by
  refine ⟨?_, rfl⟩
  unfold procRound
  simp only [hr, Bool.or_false]
  rcases hinv with ⟨haw, hm⟩ | ⟨haw, hp⟩
  · -- no restart pending yet
    set g1 : GateSt := { g with eng := { g.eng with
        awaiting_restart_loop := g.eng.awaiting_restart_loop,
        is_started_midi := g.eng.is_started_midi && !r.stopReq } } with hg1
    have hpres := foldl_drain_preserves tp r.events g1
    have haw2 : (r.events.foldl (drainStep tp) g1).eng.awaiting_restart_loop = false := by
      rw [hpres.2.2.1]; exact haw
    have hm2 : 0 < cfg.number_of_mistakes →
        (r.events.foldl (drainStep tp) g1).eng.mistakes_count ≤ cfg.number_of_mistakes := by
      rw [hpres.2.2.2.1]; exact hm
    rcases handle_wrong_fire cfg (r.events.foldl (drainStep tp) g1).wrong
        (r.events.foldl (drainStep tp) g1).eng hm2 haw2 with ⟨hf1, hf2⟩ | ⟨hf1, hf2⟩
    · exact Or.inl ⟨hf1, hf2⟩
    · refine Or.inr ⟨hf1, ?_⟩
      rw [(handle_wrong_notes_preserves _ _ _).2.1]
      refine foldl_drain_qual_clear tp r.events g1 ?_
      have hwg1 : g1.wrong = [] := hw
      rw [hwg1]
      simpa [countQualifying] using hf2
  · -- restart already pending, software notes already forfeited
    set g1 : GateSt := { g with eng := { g.eng with
        awaiting_restart_loop := g.eng.awaiting_restart_loop,
        is_started_midi := g.eng.is_started_midi && !r.stopReq } } with hg1
    have hpres := foldl_drain_preserves tp r.events g1
    refine Or.inr ⟨?_, ?_⟩
    · exact handle_wrong_awaiting_true cfg _ _ (by rw [hpres.2.2.1]; exact haw)
    · rw [(handle_wrong_notes_preserves _ _ _).2.1]
      exact foldl_drain_pending_nil tp r.events g1 hp

lemma gateWait_inv (cfg : Config) (tp : List Nat) :
    ∀ (rounds : List Round) (g : GateSt), (∀ r ∈ rounds, r.restartReq = false) →
      g.wrong = [] → gateInv cfg g → gateInv cfg (gateWait cfg tp rounds g).2 := by
  intro rounds
  induction rounds with
  | nil =>
    intro g _ _ hinv
    unfold gateWait
    split_ifs <;> exact hinv
  | cons r rs ih =>
    intro g hr hw hinv
    unfold gateWait
    split_ifs
    · exact hinv
    · exact hinv
    · have hpr := procRound_inv cfg tp r g (hr r (List.mem_cons_self _ _)) hw hinv
      exact ih (procRound cfg tp r g) (fun r' hr' => hr r' (List.mem_cons_of_mem _ hr'))
        hpr.2 hpr.1

lemma gateEpilogue_awaiting (g : GateSt) :
    (gateEpilogue g).awaiting_restart_loop = g.eng.awaiting_restart_loop := by
  simp only [gateEpilogue]
  split_ifs <;> rfl

lemma gateEpilogue_ntp (g : GateSt) : (gateEpilogue g).notes_to_press = [] := by
  simp only [gateEpilogue]

lemma gateEpilogue_pending_nil (g : GateSt) (h : g.eng.pending_software_notes = []) :
    (gateEpilogue g).pending_software_notes = [] := by
  simp only [gateEpilogue]
  split_ifs <;> simp_all

lemma lightAndRoute_awaiting (cfg : Config) (msg : Msg) (s : EngineState) :
    (lightAndRoute cfg msg s).awaiting_restart_loop = s.awaiting_restart_loop := by
  unfold lightAndRoute
  rw [(softwarePhase_fields cfg msg _).1, (toPressPhase_fields cfg msg _).2.2,
    (hintPhase_fields cfg msg s).2.2.2]

lemma escapeValve_awaiting (b : Bool) (s : EngineState) :
    (escapeValve b s).awaiting_restart_loop = s.awaiting_restart_loop := by
  simp only [escapeValve]
  split_ifs <;> rfl

lemma escapeValve_pending_nil (b : Bool) (s : EngineState)
    (h : s.pending_software_notes = []) :
    (escapeValve b s).pending_software_notes = [] := by
  simp only [escapeValve]
  split_ifs <;> simp_all

lemma lightAndRoute_pending_nil (cfg : Config) (msg : Msg) (s : EngineState)
    (hpr : cfg.practice = 0) (hntp : s.notes_to_press = []) :
    (lightAndRoute cfg msg s).pending_software_notes = s.pending_software_notes := by
  have hpr2 : cfg.practice ≠ 2 := by omega
  have ht1 := hintPhase_fields cfg msg s
  unfold lightAndRoute
  by_cases hsw : softwareCond cfg msg
  · have hdis := toPress_software_disjoint cfg msg hpr2 hsw
    have ht2 : toPressPhase cfg msg (hintPhase cfg msg s) = hintPhase cfg msg s := by
      simp only [toPressPhase]
      rw [if_neg hdis]
    rw [ht2]
    simp only [softwarePhase]
    rw [if_pos hsw, if_neg hpr2, if_neg (by rw [ht1.2.2.1, hntp]; simp)]
    exact ht1.1
  · simp only [softwarePhase]
    rw [if_neg hsw]
    rw [(toPressPhase_fields cfg msg _).1, ht1.1]

lemma checkPhase_restart (cfg : Config) (msg : Msg) (rounds : List Round)
    (s s3 : EngineState)
    (hr : ∀ r ∈ rounds, r.restartReq = false)
    (haw : s.awaiting_restart_loop = false)
    (hm : 0 < cfg.number_of_mistakes → s.mistakes_count ≤ cfg.number_of_mistakes)
    (hcp : checkPhase cfg msg rounds s = some s3)
    (h3 : s3.awaiting_restart_loop = true) :
    s3.pending_software_notes = [] ∧ s3.notes_to_press = [] := by
  simp only [checkPhase] at hcp
  split_ifs at hcp with hmeta hgate
  · -- non-meta message that opens a gate
    set s2 : EngineState := { s with
        socket_send := s.socket_send ++ (cfg.notes_time.get? s.current_idx).toList,
        current_idx := s.current_idx + 1, next_note_time := some () } with hs2def
    rcases hgw : gateWait cfg s.notes_to_press rounds ⟨[], [], s2⟩ with ⟨out, g⟩
    have hinv0 : gateInv cfg ⟨[], [], s2⟩ := Or.inl ⟨haw, hm⟩
    have hinv := gateWait_inv cfg s.notes_to_press rounds ⟨[], [], s2⟩ hr rfl hinv0
    rw [hgw] at hcp hinv
    cases out with
    | waiting => exact absurd hcp (by simp)
    | exited =>
      have hs3 : s3 = gateEpilogue g := by
        simpa using hcp.symm
      subst hs3
      have hawg : g.eng.awaiting_restart_loop = true := by
        rw [gateEpilogue_awaiting] at h3
        exact h3
      rcases hinv with ⟨hf, -⟩ | ⟨-, hp⟩
      · rw [hawg] at hf
        cases hf
      · exact ⟨gateEpilogue_pending_nil g hp, gateEpilogue_ntp g⟩
    | interrupted =>
      have hs3 : s3 = gateEpilogue g := by
        simpa using hcp.symm
      subst hs3
      have hawg : g.eng.awaiting_restart_loop = true := by
        rw [gateEpilogue_awaiting] at h3
        exact h3
      rcases hinv with ⟨hf, -⟩ | ⟨-, hp⟩
      · rw [hawg] at hf
        cases hf
      · exact ⟨gateEpilogue_pending_nil g hp, gateEpilogue_ntp g⟩
  · -- non-meta message without a gate: the restart flag cannot be set here
    have hs3 : s3 = { s with
        socket_send := s.socket_send ++ (cfg.notes_time.get? s.current_idx).toList,
        current_idx := s.current_idx + 1 } := by
      simpa using hcp.symm
    rw [hs3] at h3
    exact absurd h3 (by simp [haw])
  · -- meta message: state unchanged, restart flag cannot be set here
    have hs3 : s3 = s := by simpa using hcp.symm
    rw [hs3] at h3
    exact absurd h3 (by simp [haw])

/-- Claim C1 (amended): when a restart is triggered without any manual
`restart_loop` request (so by the mistake-threshold path inside the gate
wait), the step that breaks out of the slice leaves `pending_software_notes`
empty, and at re-entry of the per-iteration loop `current_idx` equals the
slice start derived from `start_point`, `notes_to_press` is empty and the
pending buffer is still empty.  (A manual `restart_loop` call can instead
carry buffered software notes across the restart — see the counterexample.) -/
theorem restart_determinism (cfg : Config) (trackLen : Nat) (msg : Msg)
    (inp : StepInput) (s s1 : EngineState)
    (hpr : cfg.practice = 0)
    (hreq : inp.restartReq = false)
    (hrounds : ∀ r ∈ inp.rounds, r.restartReq = false)
    (haw : s.awaiting_restart_loop = false)
    (hm : 0 < cfg.number_of_mistakes → s.mistakes_count ≤ cfg.number_of_mistakes)
    (hstep : step cfg msg inp s = (StepExit.restarting, s1)) :
    s1.pending_software_notes = [] ∧
    (iterInit cfg trackLen s1).current_idx = start_idx cfg trackLen ∧
    (iterInit cfg trackLen s1).notes_to_press = [] ∧
    (iterInit cfg trackLen s1).pending_software_notes = [] := by
  suffices hpend : s1.pending_software_notes = [] by exact ⟨hpend, rfl, rfl, hpend⟩
  simp only [step] at hstep
  set sA := applyAsync inp s with hsAdef
  have hawA : sA.awaiting_restart_loop = false := by
    simp [hsAdef, applyAsync, hreq, haw]
  have hmA : 0 < cfg.number_of_mistakes → sA.mistakes_count ≤ cfg.number_of_mistakes := hm
  by_cases hstop : sA.is_started_midi = false
  · rw [if_pos hstop] at hstep
    exact absurd hstep (by simp)
  · rw [if_neg hstop] at hstep
    rcases hcp : checkPhase cfg msg inp.rounds sA with _ | s3 <;> rw [hcp] at hstep
    · exact absurd hstep (by simp)
    · simp only [] at hstep
      by_cases hmeta : msg.typ ≠ MsgType.meta
      · rw [if_pos hmeta] at hstep
        split_ifs at hstep with hawf
        · simp only [Prod.mk.injEq, true_and] at hstep
          obtain hs1 := hstep.symm
          simp only [escapeValve_awaiting, lightAndRoute_awaiting] at hawf
          obtain ⟨hp3, hntp3⟩ :=
            checkPhase_restart cfg msg inp.rounds sA s3 hrounds hawA hmA hcp hawf
          have hs4p : (lightAndRoute cfg msg s3).pending_software_notes = [] := by
            rw [lightAndRoute_pending_nil cfg msg s3 hpr hntp3]
            exact hp3
          rw [hs1]
          exact escapeValve_pending_nil _ _ hs4p
        · exact absurd hstep (by simp)
      · rw [if_neg hmeta] at hstep
        split_ifs at hstep with hawf
        · simp only [Prod.mk.injEq, true_and] at hstep
          obtain hs1 := hstep.symm
          simp only [escapeValve_awaiting] at hawf
          obtain ⟨hp3, hntp3⟩ :=
            checkPhase_restart cfg msg inp.rounds sA s3 hrounds hawA hmA hcp hawf
          rw [hs1]
          exact escapeValve_pending_nil _ _ hp3
        · exact absurd hstep (by simp)

/-- A fresh engine state as `learn_midi` starts: nothing pending, no
mistakes, engine started. -/
def engInit : EngineState :=
  { current_idx := 0, absolute_idx := 0, notes_to_press := [],
    pending_software_notes := [], mistakes_count := 0, awaiting_restart_loop := false,
    is_started_midi := true, hand_hint_notesL := [], hand_hint_notesR := [],
    socket_send := [], sent := [], restart_requests := 0, next_note_time := none }

/-- A right-hand note-to-press message with zero delta time. -/
def msgNP : Msg := ⟨MsgType.note_on, 60, 64, 1, 0⟩

/-- A step input with no asynchronous events at all. -/
def inpPlain : StepInput := ⟨false, false, [], false⟩

/-- A step input recording a manual `restart_loop` call arriving before the
message is processed. -/
def inpRestart : StepInput := ⟨true, false, [], false⟩

/-- The engine state after the first counterexample step: note 60 is now
expected from the player. -/
def st1 : EngineState :=
  { current_idx := 1, absolute_idx := 1, notes_to_press := [60],
    pending_software_notes := [], mistakes_count := 0, awaiting_restart_loop := false,
    is_started_midi := true, hand_hint_notesL := [], hand_hint_notesR := [],
    socket_send := [], sent := [], restart_requests := 0, next_note_time := none }

lemma step1_eval : step cfgW msgNP inpPlain (iterInit cfgW 2 engInit) =
    (StepExit.next, st1) := by
  simp only [step, applyAsync, checkPhase, iterInit, start_idx]
  norm_num +decide [cfgW, engInit, st1, msgNP, inpPlain, gateCond, tDelayOf, tick2second,
    lightAndRoute, hintPhase, toPressPhase, softwarePhase, softwareCond, escapeValve]

/-- The engine state after the manual restart breaks the slice: the software
note buffered during the iteration survives into the next loop iteration. -/
def s2E : EngineState :=
  { current_idx := 2, absolute_idx := 2, notes_to_press := [60],
    pending_software_notes := [msgSW], mistakes_count := 0,
    awaiting_restart_loop := false, is_started_midi := true, hand_hint_notesL := [],
    hand_hint_notesR := [], socket_send := [], sent := [], restart_requests := 0,
    next_note_time := none }

lemma step2_eval : step cfgW msgSW inpRestart st1 = (StepExit.restarting, s2E) := by
  simp only [step, applyAsync, checkPhase]
  norm_num +decide [cfgW, engInit, st1, s2E, msgSW, inpRestart, gateCond, tDelayOf,
    tick2second, lightAndRoute, hintPhase, toPressPhase, softwarePhase, softwareCond,
    escapeValve]

/-- Claim C1 counterexample: a run in which note 60 becomes expected, a
left-hand software note is buffered into `pending_software_notes`, and a
manual `restart_loop` request breaks the slice.  The run does exit with
`restarting`, but at re-entry of the per-iteration loop
`pending_software_notes` is NOT empty — the buffered software note survives
the restart, contradicting the claim as stated. -/
theorem restart_determinism_counterexample :
    (runSlice cfgW [(msgNP, inpPlain), (msgSW, inpRestart)] (iterInit cfgW 2 engInit)).1 =
      RunExit.restarting ∧
    (iterInit cfgW 2 (runSlice cfgW [(msgNP, inpPlain), (msgSW, inpRestart)]
        (iterInit cfgW 2 engInit)).2).pending_software_notes ≠ [] := by
  have h : runSlice cfgW [(msgNP, inpPlain), (msgSW, inpRestart)] (iterInit cfgW 2 engInit) =
      (RunExit.restarting, s2E) := by
    simp only [runSlice, step1_eval, step2_eval]
  rw [h]
  exact ⟨rfl, by decide⟩

/-- The witness configuration: Melody mode with mistake threshold 1. -/
def cfgM : Config := { cfgW with number_of_mistakes := 1 }

/-- A note-on with one tick of delta time, opening a gate before it. -/
def msgGate : Msg := ⟨MsgType.note_on, 60, 64, 1, 1⟩

/-- Engine state entering the witness step: note 60 outstanding, one prior
mistake, one software note deferred. -/
def sM : EngineState :=
  { current_idx := 0, absolute_idx := 0, notes_to_press := [60],
    pending_software_notes := [msgSW], mistakes_count := 1,
    awaiting_restart_loop := false, is_started_midi := true, hand_hint_notesL := [],
    hand_hint_notesR := [], socket_send := [], sent := [], restart_requests := 0,
    next_note_time := none }

/-- The witness step input: the gate wait drains one wrong note-on (67),
crossing the mistake threshold; no manual restart or stop requests. -/
def inpM : StepInput := ⟨false, false, [⟨false, false, [onEv 67]⟩], false⟩

/-- The state after the witness step: the wrong note forfeited the pending
software note, the threshold breach requested exactly one loop restart, and
the restart flag has been consumed by the slice break. -/
def s1M : EngineState :=
  { current_idx := 1, absolute_idx := 1, notes_to_press := [60],
    pending_software_notes := [], mistakes_count := 0, awaiting_restart_loop := false,
    is_started_midi := true, hand_hint_notesL := [], hand_hint_notesR := [],
    socket_send := [], sent := [], restart_requests := 1, next_note_time := some () }

lemma stepM_eval : step cfgM msgGate inpM sM = (StepExit.restarting, s1M) := by
  simp only [step, applyAsync, checkPhase]
  norm_num +decide [cfgM, cfgW, sM, s1M, msgGate, inpM, gateCond, tDelayOf, tick2second,
    gateWait, procRound, drainStep, handle_wrong_notes, restart_loop, countQualifying,
    effVelocity, subsetB, gateEpilogue, lightAndRoute, hintPhase, toPressPhase,
    softwarePhase, softwareCond, escapeValve, onEv, msgSW]

/-- Claim C1 witness: the amended statement at a concrete mistake-triggered
restart (threshold 1, one wrong note-on inside the gate wait). -/
theorem restart_determinism_witness :
    cfgM.practice = 0 ∧ inpM.restartReq = false ∧
    (∀ r ∈ inpM.rounds, r.restartReq = false) ∧
    sM.awaiting_restart_loop = false ∧
    (0 < cfgM.number_of_mistakes → sM.mistakes_count ≤ cfgM.number_of_mistakes) ∧
    step cfgM msgGate inpM sM = (StepExit.restarting, s1M) ∧
    (s1M.pending_software_notes = [] ∧
      (iterInit cfgM 2 s1M).current_idx = start_idx cfgM 2 ∧
      (iterInit cfgM 2 s1M).notes_to_press = [] ∧
      (iterInit cfgM 2 s1M).pending_software_notes = []) :=
  ⟨rfl, rfl, by decide, rfl, by decide, stepM_eval,
    restart_determinism cfgM 2 msgGate inpM sM s1M rfl rfl (by decide) rfl (by decide)
      stepM_eval⟩
